import Mathlib

/-!
Verification of the scrcpy python client's protocol layer.

Shallow embedding of `src/scrcpy_python_client.py` (framing, handshake,
video demuxer, session stop) and `src/control.py` (control codec,
inbound device loop, control stop).  Byte streams are `List ℕ` with each
byte `< 256`; socket reads on a finite stream return `min requested
available` bytes, and an exhausted stream models a closed peer.
-/

/-! ## Big-endian byte encoding helpers -/

/-- Big-endian value of a byte list (as `struct.unpack` with `>` formats). -/
def beVal (bs : List ℕ) : ℕ :=
  bs.foldl (fun a b => a * 256 + b) 0

/-- Big-endian encoding of `v` into `w` bytes (as `struct.pack` with `>` formats);
faithful when `v < 2^(8*w)`. -/
def beBytes : ℕ → ℕ → List ℕ
  | 0, _ => []
  | n + 1, v => beBytes n (v / 256) ++ [v % 256]

theorem beBytes_length (w v : ℕ) : (beBytes w v).length = w := by
  induction w generalizing v with
  | zero => rfl
  | succ n ih => simp [beBytes, ih]

theorem beVal_append_single (l : List ℕ) (b : ℕ) :
    beVal (l ++ [b]) = beVal l * 256 + b := by
  simp [beVal, List.foldl_append]

theorem beVal_beBytes (w v : ℕ) (h : v < 2 ^ (8 * w)) :
    beVal (beBytes w v) = v := by
  induction w generalizing v with
  | zero =>
    interval_cases v
    rfl
  | succ n ih =>
    have hdiv : v / 256 < 2 ^ (8 * n) := by
      apply Nat.div_lt_of_lt_mul
      calc v < 2 ^ (8 * (n + 1)) := h
        _ = 256 * 2 ^ (8 * n) := by ring
    calc beVal (beBytes (n + 1) v)
        = beVal (beBytes n (v / 256)) * 256 + v % 256 := by
          simp [beBytes, beVal_append_single]
      _ = v / 256 * 256 + v % 256 := by rw [ih _ hdiv]
      _ = v := by omega

/-! ## Framing primitive: `read_exact`

`read_exact(sock, n)` loops on `recv` until `n` bytes are gathered and
raises `EOFError("socket closed")` whenever `recv` returns an empty chunk,
i.e. whenever the finite stream holds fewer than `n` bytes. -/

inductive DemuxError where
  | socketClosed
  | decodeError
  | unsupportedCodec (id : ℕ)
deriving Repr, DecidableEq

/-- `read_exact`: exactly `n` bytes or `EOFError` when the stream is shorter. -/
def readExact (s : List ℕ) (n : ℕ) : Except DemuxError (List ℕ × List ℕ) :=
  if s.length < n then .error .socketClosed
  else .ok (s.take n, s.drop n)

/-! ## Video demuxer -/

def HEADER_SIZE : ℕ := 12
def FLAG_CONFIG : ℕ := 2 ^ 63
def FLAG_KEY_FRAME : ℕ := 2 ^ 62
def PTS_MASK : ℕ := FLAG_KEY_FRAME - 1

/-- A demuxed video packet: its payload bytes, the 62-bit presentation
timestamp and the keyframe flag extracted from the header word. -/
structure VideoPacket where
  payload : List ℕ
  pts : ℕ
  isKeyframe : Bool
deriving Repr, DecidableEq

/-- The `while True` body of `_video_loop` after decoder initialisation:
reads a 12-byte header (8-byte big-endian flags word, 4-byte big-endian
length), then the payload.  A CONFIG packet replaces the pending
configuration buffer; a non-config packet is emitted with the pending
buffer (if nonempty) prepended.  The loop only leaves via an `EOFError`
from `read_exact`; the result collects the emitted packets and the way
the loop ended. -/
def videoLoop (cfg : List ℕ) (s : List ℕ) :
    List VideoPacket × Except DemuxError Unit :=
  if h12 : s.length < 12 then ([], .error .socketClosed)
  else
    let header := s.take 12
    let s1 := s.drop 12
    let pts_flags := beVal (header.take 8)
    let size := beVal (header.drop 8)
    if hsz : s1.length < size then ([], .error .socketClosed)
    else
      let payload := s1.take size
      let s2 := s1.drop size
      if pts_flags &&& FLAG_CONFIG ≠ 0 then
        videoLoop payload s2
      else
        let data := if cfg.isEmpty then payload else cfg ++ payload
        let pkt : VideoPacket :=
          ⟨data, pts_flags &&& PTS_MASK, pts_flags &&& FLAG_KEY_FRAME != 0⟩
        let rest := videoLoop [] s2
        (pkt :: rest.1, rest.2)
  termination_by s.length
  decreasing_by
    all_goals simp only [List.length_drop]; omega

/-- The wire form of one video-stream packet: the 8-byte big-endian flags
word `w`, the 4-byte big-endian payload length, then the payload `p`. -/
def pktBytes (w : ℕ) (p : List ℕ) : List ℕ :=
  beBytes 8 w ++ beBytes 4 p.length ++ p

/-! ## Handshake (`_init_decoder`) -/

inductive Codec where
  | h264
  | hevc
  | av1
deriving Repr, DecidableEq

/-- The fixed codec table `CODECS`. -/
def CODECS (id : ℕ) : Option Codec :=
  if id = 0x68323634 then some .h264
  else if id = 0x68323635 then some .hevc
  else if id = 0x00617631 then some .av1
  else none

/-- Continuation-byte test for UTF-8 validation (`0x80 ≤ b ≤ 0xBF`). -/
def utf8Cont (b : ℕ) : Bool :=
  decide (0x80 ≤ b ∧ b ≤ 0xBF)

/-- Validity of a byte list as UTF-8, as checked by python's strict
`bytes.decode("utf-8")` (RFC 3629 table: no overlongs, no surrogates,
max U+10FFFF). -/
def utf8Valid : List ℕ → Bool
  | [] => true
  | b :: rest =>
    if b ≤ 0x7F then utf8Valid rest
    else if 0xC2 ≤ b ∧ b ≤ 0xDF then
      match rest with
      | c1 :: r => utf8Cont c1 && utf8Valid r
      | _ => false
    else if b = 0xE0 then
      match rest with
      | c1 :: c2 :: r =>
        decide (0xA0 ≤ c1 ∧ c1 ≤ 0xBF) && utf8Cont c2 && utf8Valid r
      | _ => false
    else if (0xE1 ≤ b ∧ b ≤ 0xEC) ∨ b = 0xEE ∨ b = 0xEF then
      match rest with
      | c1 :: c2 :: r => utf8Cont c1 && utf8Cont c2 && utf8Valid r
      | _ => false
    else if b = 0xED then
      match rest with
      | c1 :: c2 :: r =>
        decide (0x80 ≤ c1 ∧ c1 ≤ 0x9F) && utf8Cont c2 && utf8Valid r
      | _ => false
    else if b = 0xF0 then
      match rest with
      | c1 :: c2 :: c3 :: r =>
        decide (0x90 ≤ c1 ∧ c1 ≤ 0xBF) && utf8Cont c2 && utf8Cont c3 && utf8Valid r
      | _ => false
    else if 0xF1 ≤ b ∧ b ≤ 0xF3 then
      match rest with
      | c1 :: c2 :: c3 :: r =>
        utf8Cont c1 && utf8Cont c2 && utf8Cont c3 && utf8Valid r
      | _ => false
    else if b = 0xF4 then
      match rest with
      | c1 :: c2 :: c3 :: r =>
        decide (0x80 ≤ c1 ∧ c1 ≤ 0x8F) && utf8Cont c2 && utf8Cont c3 && utf8Valid r
      | _ => false
    else false

/-- Result of a successful handshake. -/
structure HandshakeInfo where
  deviceName : List ℕ
  codec : Codec
  width : ℕ
  height : ℕ
deriving Repr, DecidableEq

/-- `_init_decoder`: discard 1 byte; read 64 name bytes, truncate at the
first NUL and UTF-8-decode them; read the 4-byte big-endian codec id;
read 8 bytes of resolution; then look the codec id up, failing with
`RuntimeError("Unsupported codec id")` when absent. -/
def initDecoder (s : List ℕ) : Except DemuxError (HandshakeInfo × List ℕ) := do
  let r1 ← readExact s 1
  let r2 ← readExact r1.2 64
  let name := r2.1.takeWhile (fun b => b ≠ 0)
  if utf8Valid name = false then
    throw DemuxError.decodeError
  let r3 ← readExact r2.2 4
  let rawCodec := beVal r3.1
  let r4 ← readExact r3.2 8
  match CODECS rawCodec with
  | none => throw (DemuxError.unsupportedCodec rawCodec)
  | some c =>
      pure (⟨name, c, beVal (r4.1.take 4), beVal (r4.1.drop 4)⟩, r4.2)

/-- `_video_loop` as a whole: handshake, then the demux loop from an empty
pending-configuration buffer.  The first component is every packet handed
to the decoder; the second is how the session ended. -/
def clientVideoSession (s : List ℕ) :
    List VideoPacket × Except DemuxError Unit :=
  match initDecoder s with
  | .error e => ([], .error e)
  | .ok (_, rest) => videoLoop [] rest

/-! ## Client stop (`Client.stop` / `_stop_server`)

`_stop_server` terminates the pushed server process when a handle is held
and then always re-runs `adb forward --remove`.  It never clears
`state.proc`.  We track the externally observable actions as a trace.
`Popen.terminate` only signals while `returncode` is unset, i.e. before a
`wait` has reaped the process. -/

structure ClientStopState where
  procPresent : Bool
  procExited : Bool
deriving Repr, DecidableEq

inductive ClientEffect where
  | sigterm
  | adbForwardRemove
deriving Repr, DecidableEq

/-- `_stop_server`: signal and reap the process if a handle is held, then
run `adb forward --remove` unconditionally. -/
def stopServer (st : ClientStopState) : ClientStopState × List ClientEffect :=
  if st.procPresent then
    ({ st with procExited := true },
      (if st.procExited then [] else [ClientEffect.sigterm])
        ++ [ClientEffect.adbForwardRemove])
  else
    (st, [ClientEffect.adbForwardRemove])

/-- `Client.stop` just delegates to `_stop_server`. -/
def clientStop (st : ClientStopState) : ClientStopState × List ClientEffect :=
  stopServer st

/-! ## Control codec (`control.py`) -/

def CONTROL_MSG_TYPE_INJECT_KEYCODE : ℕ := 0
def CONTROL_MSG_TYPE_INJECT_TEXT : ℕ := 1
def CONTROL_MSG_TYPE_INJECT_TOUCH_EVENT : ℕ := 2
def CONTROL_MSG_TYPE_BACK_OR_SCREEN_ON : ℕ := 4
def CONTROL_MSG_TYPE_EXPAND_NOTIFICATION_PANEL : ℕ := 5
def CONTROL_MSG_TYPE_COLLAPSE_PANELS : ℕ := 7

/-- `SC_POINTER_ID_MOUSE = -1 & 0xFFFFFFFFFFFFFFFF`. -/
def SC_POINTER_ID_MOUSE : ℕ := Int.toNat ((-1) % (2 ^ 64 : ℤ))

/-- `struct.pack` field codecs: each checks its range exactly as python's
`struct` module does (raising `struct.error` otherwise) and yields the
big-endian bytes. -/
def pack_B (v : ℕ) : Except String (List ℕ) :=
  if v < 2 ^ 8 then .ok (beBytes 1 v) else .error "struct error"

def pack_H (v : ℕ) : Except String (List ℕ) :=
  if v < 2 ^ 16 then .ok (beBytes 2 v) else .error "struct error"

def pack_I (v : ℕ) : Except String (List ℕ) :=
  if v < 2 ^ 32 then .ok (beBytes 4 v) else .error "struct error"

def pack_Q (v : ℕ) : Except String (List ℕ) :=
  if v < 2 ^ 64 then .ok (beBytes 8 v) else .error "struct error"

/-- Signed 32-bit field (`i`): range-checked, encoded as two's complement. -/
def pack_i (v : ℤ) : Except String (List ℕ) :=
  if -(2 ^ 31) ≤ v ∧ v < 2 ^ 31 then
    .ok (beBytes 4 (Int.toNat (v % (2 ^ 32 : ℤ))))
  else .error "struct error"

/-- The mutable fields of `Control` relevant to the sending helpers:
whether `self.sock` is still set, whether the reader thread handle is
still set, and the published resolution. -/
structure ControlState where
  sock : Bool
  thread : Bool
  resolution : Option (ℕ × ℕ)
deriving Repr, DecidableEq

inductive CtlEffect where
  | shutdownCloseSocket
  | joinThread
deriving Repr, DecidableEq

/-- `Control.stop`: shut down and close the socket if present and set it
to `None`; join and clear the thread if present. -/
def ctlStop (st : ControlState) : ControlState × List CtlEffect :=
  ({ sock := false, thread := false, resolution := st.resolution },
    (if st.sock then [CtlEffect.shutdownCloseSocket] else [])
      ++ (if st.thread then [CtlEffect.joinThread] else []))

/-- `Control.set_resolution`. -/
def set_resolution (st : ControlState) (r : ℕ × ℕ) : ControlState :=
  { st with resolution := some r }

/-- Outcome of a sending helper: `ok bytes` is the message written
(`ok []` when the helper returned without touching the socket), `error`
is a raised `struct.error`. -/
abbrev SendResult := Except String (List ℕ)

/-- `Control.send_text`; the UTF-8 payload bytes stand for
`text.encode("utf-8")`. -/
def send_text (st : ControlState) (payload : List ℕ) : SendResult :=
  if st.sock then do
    let t ← pack_B CONTROL_MSG_TYPE_INJECT_TEXT
    let l ← pack_I payload.length
    pure (t ++ l ++ payload)
  else pure []

/-- `Control.inject_keycode`: `struct.pack(">BBIII", 0, action, keycode, repeat, meta)`. -/
def inject_keycode (st : ControlState) (keycode action rpt meta : ℕ) : SendResult :=
  if st.sock then do
    let t ← pack_B CONTROL_MSG_TYPE_INJECT_KEYCODE
    let a ← pack_B action
    let k ← pack_I keycode
    let r ← pack_I rpt
    let m ← pack_I meta
    pure (t ++ a ++ k ++ r ++ m)
  else pure []

/-- The pressure fixed-point conversion in `inject_touch`:
`p = int(max(0.0, min(1.0, pressure)) * 0x10000); if p > 0xFFFF: p = 0xFFFF`.
Python floats scale exactly under multiplication by `0x10000`, so ℚ is a
faithful carrier; `int(...)` truncates (floor, as the value is ≥ 0). -/
def encodePressure (pressure : ℚ) : ℕ :=
  let p := Int.toNat ⌊max 0 (min 1 pressure) * 0x10000⌋
  if p > 0xFFFF then 0xFFFF else p

/-- The pressure encoding as the specification words it: for `p` the wire
value is `min(round(clamp(p, 0, 1) * 65536), 65535)`.  Stated for
comparison with `encodePressure`, which is read off the source. -/
def specPressureEncoding (p : ℚ) : ℕ :=
  min (Int.toNat (round (max 0 (min 1 p) * 65536))) 65535

/-- `Control.inject_touch`: no-op without socket or resolution, else
`struct.pack(">BBQiiHHHII", 2, action, SC_POINTER_ID_MOUSE, x, y, width,
height, p, action_button, buttons)`. -/
def inject_touch (st : ControlState) (action : ℕ) (x y : ℤ)
    (pressure : ℚ) (action_button buttons : ℕ) : SendResult :=
  match st.sock, st.resolution with
  | true, some (width, height) => do
    let t ← pack_B CONTROL_MSG_TYPE_INJECT_TOUCH_EVENT
    let a ← pack_B action
    let pid ← pack_Q SC_POINTER_ID_MOUSE
    let bx ← pack_i x
    let by' ← pack_i y
    let bw ← pack_H width
    let bh ← pack_H height
    let bp ← pack_H (encodePressure pressure)
    let bab ← pack_I action_button
    let bbt ← pack_I buttons
    pure (t ++ a ++ pid ++ bx ++ by' ++ bw ++ bh ++ bp ++ bab ++ bbt)
  | _, _ => pure []

/-- `Control.back_or_screen_on`: `struct.pack(">BB", 4, action)`. -/
def back_or_screen_on (st : ControlState) (action : ℕ) : SendResult :=
  if st.sock then do
    let t ← pack_B CONTROL_MSG_TYPE_BACK_OR_SCREEN_ON
    let a ← pack_B action
    pure (t ++ a)
  else pure []

/-- `Control.expand_notification_panel`: `struct.pack(">B", 5)`. -/
def expand_notification_panel (st : ControlState) : SendResult :=
  if st.sock then pack_B CONTROL_MSG_TYPE_EXPAND_NOTIFICATION_PANEL
  else pure []

/-- `Control.collapse_panels`: `struct.pack(">B", 7)`. -/
def collapse_panels (st : ControlState) : SendResult :=
  if st.sock then pack_B CONTROL_MSG_TYPE_COLLAPSE_PANELS
  else pure []

/-! ## Inbound control loop (`_device_loop`)

The loop reads a 1-byte tag and dispatches on it with an `if/elif` chain
that has no `else`: unknown tags fall through and the loop keeps reading.
The whole loop body sits in `try: ... except Exception: pass`, so any
raised error silently ends the loop.  On a finite stream, `recv(n)`
returns `min n available` bytes; a short read where `struct.unpack`
needs a fixed size raises and thus ends the loop.  The model returns the
events printed/consumed before the loop ended. -/

inductive DeviceEvent where
  | clipboard (text : List ℕ)
  | ackClipboard
  | uhidOutput (ident : ℕ) (payload : List ℕ)
deriving Repr, DecidableEq

def deviceLoop : List ℕ → List DeviceEvent
  | [] => []
  | t :: rest =>
    if t = 0 then
      if rest.length < 4 then []
      else
        let len := beVal (rest.take 4)
        let r2 := rest.drop 4
        let text := r2.take len
        if utf8Valid text then
          DeviceEvent.clipboard text :: deviceLoop (r2.drop len)
        else []
    else if t = 1 then
      DeviceEvent.ackClipboard :: deviceLoop (rest.drop 8)
    else if t = 2 then
      if rest.length < 4 then []
      else
        let ident := beVal (rest.take 2)
        let size := beVal ((rest.take 4).drop 2)
        DeviceEvent.uhidOutput ident ((rest.drop 4).take size)
          :: deviceLoop ((rest.drop 4).drop size)
    else
      deviceLoop rest
  termination_by l => l.length
  decreasing_by
    all_goals simp only [List.length_drop, List.length_cons]; omega

/-! ## Helper lemmas -/

theorem land_pow_ne_zero_iff (n i : ℕ) :
    (n &&& 2 ^ i ≠ 0) ↔ n / 2 ^ i % 2 = 1 := by
  rw [Nat.and_two_pow, Nat.testBit_to_div_mod]
  cases h : decide (n / 2 ^ i % 2 = 1) <;> simp_all

theorem videoLoop_short (cfg s : List ℕ) (h : s.length < 12) :
    videoLoop cfg s = ([], .error .socketClosed) := by
  rw [videoLoop, dif_pos h]

theorem videoLoop_step (cfg : List ℕ) (w : ℕ) (p rest : List ℕ)
    (hw : w < 2 ^ 64) (hp : p.length < 2 ^ 32) :
    videoLoop cfg (pktBytes w p ++ rest) =
      if w &&& FLAG_CONFIG ≠ 0 then videoLoop p rest
      else
        (⟨if cfg.isEmpty then p else cfg ++ p, w &&& PTS_MASK,
            w &&& FLAG_KEY_FRAME != 0⟩
          :: (videoLoop [] rest).1, (videoLoop [] rest).2) := by
  have hlen8 : (beBytes 8 w).length = 8 := beBytes_length _ _
  have hlen4 : (beBytes 4 p.length).length = 4 := beBytes_length _ _
  have e1 : pktBytes w p ++ rest
      = (beBytes 8 w ++ beBytes 4 p.length) ++ (p ++ rest) := by
    simp [pktBytes]
  have hlen12 : (beBytes 8 w ++ beBytes 4 p.length).length = 12 := by
    simp [hlen8, hlen4]
  have htk : ((beBytes 8 w ++ beBytes 4 p.length) ++ (p ++ rest)).take 12
      = beBytes 8 w ++ beBytes 4 p.length := List.take_left' hlen12
  have hdr : ((beBytes 8 w ++ beBytes 4 p.length) ++ (p ++ rest)).drop 12
      = p ++ rest := List.drop_left' hlen12
  have htk8 : (beBytes 8 w ++ beBytes 4 p.length).take 8 = beBytes 8 w :=
    List.take_left' hlen8
  have hdr8 : (beBytes 8 w ++ beBytes 4 p.length).drop 8 = beBytes 4 p.length :=
    List.drop_left' hlen8
  have hv8 : beVal (beBytes 8 w) = w :=
    beVal_beBytes 8 w (by norm_num at hw ⊢; exact hw)
  have hv4 : beVal (beBytes 4 p.length) = p.length :=
    beVal_beBytes 4 p.length (by norm_num at hp ⊢; exact hp)
  have htkp : (p ++ rest).take p.length = p := List.take_left p rest
  have hdrp : (p ++ rest).drop p.length = rest := List.drop_left p rest
  rw [e1, videoLoop]
  have hnlt : ¬ ((beBytes 8 w ++ beBytes 4 p.length) ++ (p ++ rest)).length < 12 := by
    simp only [List.length_append, hlen8, hlen4]
    omega
  rw [dif_neg hnlt]
  simp only [htk, hdr, htk8, hdr8, hv8, hv4]
  have hnlt2 : ¬ (p ++ rest).length < p.length := by
    simp only [List.length_append]
    omega
  rw [dif_neg hnlt2]
  simp only [htkp, hdrp]

theorem videoLoop_last (cfg : List ℕ) (w : ℕ) (p : List ℕ)
    (hw : w < 2 ^ 64) (hp : p.length < 2 ^ 32) :
    videoLoop cfg (pktBytes w p) =
      if w &&& FLAG_CONFIG ≠ 0 then videoLoop p []
      else ([⟨if cfg.isEmpty then p else cfg ++ p, w &&& PTS_MASK,
          w &&& FLAG_KEY_FRAME != 0⟩], .error .socketClosed) := by
  have h := videoLoop_step cfg w p [] hw hp
  rw [List.append_nil] at h
  rw [h, videoLoop_short [] [] (by simp)]

theorem readExact_of_length (a b : List ℕ) (n : ℕ) (h : a.length = n) :
    readExact (a ++ b) n = .ok (a, b) := by
  unfold readExact
  rw [if_neg (by simp [h]), List.take_left' h, List.drop_left' h]

theorem encodePressure_le (p : ℚ) : encodePressure p ≤ 0xFFFF := by
  simp only [encodePressure]
  split <;> omega

theorem beBytes_one (v : ℕ) (h : v < 256) : beBytes 1 v = [v] := by
  simp [beBytes, Nat.mod_eq_of_lt h]

theorem deviceLoop_nil : deviceLoop [] = [] := by
  rw [deviceLoop]

/-! ## Claims -/

/-- Claim C1: a config packet (CONFIG bit 63 set in its 8-byte header
word) immediately followed by a non-config packet demuxes to exactly one
`VideoPacket` whose payload is the config payload prepended to the
non-config payload, with pts the low 62 bits and the keyframe flag bit 62
of the non-config packet's header word — never of the config header. -/
theorem demux_splice_config_then_data (w1 w2 : ℕ) (p1 p2 : List ℕ)
    (hw1 : w1 < 2 ^ 64) (hw2 : w2 < 2 ^ 64)
    (hp1 : p1.length < 2 ^ 32) (hp2 : p2.length < 2 ^ 32)
    (hc1 : w1 &&& FLAG_CONFIG ≠ 0) (hc2 : w2 &&& FLAG_CONFIG = 0) :
    (videoLoop [] (pktBytes w1 p1 ++ pktBytes w2 p2)).1
      = [⟨p1 ++ p2, w2 % 2 ^ 62, w2 &&& FLAG_KEY_FRAME != 0⟩]
    ∧ ((w2 &&& FLAG_KEY_FRAME != 0) = true ↔ w2 / 2 ^ 62 % 2 = 1) := by
  constructor
  · rw [videoLoop_step [] w1 p1 (pktBytes w2 p2) hw1 hp1, if_pos hc1,
      videoLoop_last p1 w2 p2 hw2 hp2, if_neg (by simp [hc2])]
    have hm : w2 &&& PTS_MASK = w2 % 2 ^ 62 := by
      have := Nat.and_pow_two_sub_one_eq_mod w2 62
      simpa [PTS_MASK, FLAG_KEY_FRAME] using this
    cases p1 <;> simp [hm]
  · rw [bne_iff_ne]
    simpa [FLAG_KEY_FRAME] using land_pow_ne_zero_iff w2 62

/-- Claim C1 witness: a concrete config packet with payload `[1]` followed
by a keyframe packet (pts 5) with payload `[2, 3]`. -/
theorem demux_splice_config_then_data_witness :
    (videoLoop [] (pktBytes (2 ^ 63) [1] ++ pktBytes (2 ^ 62 + 5) [2, 3])).1
      = [⟨[1] ++ [2, 3], (2 ^ 62 + 5) % 2 ^ 62, (2 ^ 62 + 5) &&& FLAG_KEY_FRAME != 0⟩]
    ∧ (((2 ^ 62 + 5) &&& FLAG_KEY_FRAME != 0) = true
        ↔ (2 ^ 62 + 5) / 2 ^ 62 % 2 = 1) :=
  demux_splice_config_then_data (2 ^ 63) (2 ^ 62 + 5) [1] [2, 3]
    (by decide) (by decide) (by decide) (by decide) (by decide) (by decide)

/-- Claim C8: the pending configuration buffer is a single cell: a config
packet replaces whatever was buffered (last-write-wins, no accumulation);
and from an empty buffer two consecutive non-config packets are emitted
as two independent `VideoPacket` values, the second never receiving any
concatenation. -/
theorem demux_pending_config_single_entry (cfg : List ℕ) (w1 w2 : ℕ)
    (p1 p2 rest : List ℕ)
    (hw1 : w1 < 2 ^ 64) (hw2 : w2 < 2 ^ 64)
    (hp1 : p1.length < 2 ^ 32) (hp2 : p2.length < 2 ^ 32) :
    (w1 &&& FLAG_CONFIG ≠ 0 →
      videoLoop cfg (pktBytes w1 p1 ++ rest) = videoLoop p1 rest)
    ∧ (w1 &&& FLAG_CONFIG = 0 → w2 &&& FLAG_CONFIG = 0 →
      (videoLoop [] (pktBytes w1 p1 ++ (pktBytes w2 p2 ++ rest))).1
        = ⟨p1, w1 &&& PTS_MASK, w1 &&& FLAG_KEY_FRAME != 0⟩
          :: ⟨p2, w2 &&& PTS_MASK, w2 &&& FLAG_KEY_FRAME != 0⟩
          :: (videoLoop [] rest).1) := by
  constructor
  · intro hc
    rw [videoLoop_step cfg w1 p1 rest hw1 hp1, if_pos hc]
  · intro h1 h2
    rw [videoLoop_step [] w1 p1 _ hw1 hp1, if_neg (by simp [h1])]
    simp only [List.isEmpty_nil, if_pos]
    rw [videoLoop_step [] w2 p2 rest hw2 hp2, if_neg (by simp [h2])]
    simp

/-- Claim C8 witness: concrete packets — the buffer-replacement clause is
instantiated with a stale buffer `[7]`, and the two-independent-packets
clause with non-config packets `[4]` and `[5, 6]`. -/
theorem demux_pending_config_single_entry_witness :
    ((2 ^ 62 + 1) &&& FLAG_CONFIG ≠ 0 →
      videoLoop [7] (pktBytes (2 ^ 62 + 1) [4] ++ [])
        = videoLoop [4] [])
    ∧ ((2 ^ 62 + 1) &&& FLAG_CONFIG = 0 → (3 : ℕ) &&& FLAG_CONFIG = 0 →
      (videoLoop [] (pktBytes (2 ^ 62 + 1) [4] ++ (pktBytes 3 [5, 6] ++ []))).1
        = ⟨[4], (2 ^ 62 + 1) &&& PTS_MASK, (2 ^ 62 + 1) &&& FLAG_KEY_FRAME != 0⟩
          :: ⟨[5, 6], 3 &&& PTS_MASK, 3 &&& FLAG_KEY_FRAME != 0⟩
          :: (videoLoop [] []).1) :=
  demux_pending_config_single_entry [7] (2 ^ 62 + 1) 3 [4] [5, 6] []
    (by decide) (by decide) (by decide) (by decide)

/-- Claim C3 counterexample: the claim says a zero-length read at a packet
boundary (clean peer close) terminates the demux loop without raising an
error, but `read_exact` raises `EOFError("socket closed")` whenever `recv`
returns empty — also at a packet boundary.  On the empty stream (a clean
close right at a boundary) the loop ends with that error, not cleanly. -/
theorem clean_close_error_counterexample :
    (videoLoop [] []).2 = Except.error DemuxError.socketClosed
    ∧ (videoLoop [] []).2 ≠ Except.ok () := by
  rw [videoLoop_short [] [] (by simp)]
  exact ⟨rfl, by simp⟩

/-- Claim C3 (amended): every insufficient fixed-length read — a
zero-length read at a packet boundary and a short read mid-structure
alike — raises the same `EOFError("socket closed")`; the demux loop has
no error-free termination and therefore the two outcomes are not
distinguishable. -/
theorem short_read_uniform_eof (cfg s : List ℕ) (n : ℕ) (hn : s.length < n) :
    readExact s n = Except.error DemuxError.socketClosed
    ∧ (videoLoop cfg s).2 = Except.error DemuxError.socketClosed := by
  constructor
  · unfold readExact
    rw [if_pos hn]
  · clear hn
    induction cfg, s using videoLoop.induct with
    | case1 cfg s h => rw [videoLoop_short cfg s h]
    | case2 cfg s h1 header s1 size h2 =>
      rw [videoLoop, dif_neg h1, dif_pos h2]
    | case3 cfg s h1 header s1 pf size h2 payload s2 h3 ih =>
      rw [videoLoop, dif_neg h1, dif_neg h2, if_pos h3]
      exact ih
    | case4 cfg s h1 header s1 pf size h2 s2 h3 ih =>
      rw [videoLoop, dif_neg h1, dif_neg h2, if_neg h3]
      exact ih

/-- Claim C3 witness: a read of 1 byte from a cleanly closed (empty)
stream yields the same `socketClosed` error the demux loop ends with. -/
theorem short_read_uniform_eof_witness :
    readExact [] 1 = Except.error DemuxError.socketClosed
    ∧ (videoLoop [] []).2 = Except.error DemuxError.socketClosed :=
  short_read_uniform_eof [] [] 1 (by decide)

/-- Claim C5: a handshake whose 4-byte big-endian codec identifier is not
in the fixed codec table fails with the unsupported-codec error, and the
session produces no `VideoPacket` at all. -/
theorem handshake_unknown_codec_fatal (b0 : ℕ) (nameF cb rb rest : List ℕ)
    (hn : nameF.length = 64) (hcb : cb.length = 4) (hrb : rb.length = 8)
    (hutf : utf8Valid (nameF.takeWhile (fun b => b ≠ 0)) = true)
    (hcodec : CODECS (beVal cb) = none) :
    clientVideoSession ([b0] ++ (nameF ++ (cb ++ (rb ++ rest))))
      = ([], Except.error (DemuxError.unsupportedCodec (beVal cb))) := by
  have h1 := readExact_of_length [b0] (nameF ++ (cb ++ (rb ++ rest))) 1 rfl
  have h2 := readExact_of_length nameF (cb ++ (rb ++ rest)) 64 hn
  have h3 := readExact_of_length cb (rb ++ rest) 4 hcb
  have h4 := readExact_of_length rb rest 8 hrb
  simp only [clientVideoSession, initDecoder, h1, h2, h3, h4, hutf, bind,
    Except.bind, Bool.true_eq_false, if_false, hcodec, throw, throwThe,
    MonadExceptOf.throw, pure, Except.pure]

/-- Claim C5 witness: codec id `0xDEADBEEF` (after a NUL-padded empty
device name) fails with the unsupported-codec error and no packet. -/
theorem handshake_unknown_codec_fatal_witness :
    clientVideoSession
        ([0] ++ (List.replicate 64 0
          ++ ([0xDE, 0xAD, 0xBE, 0xEF] ++ (List.replicate 8 0 ++ []))))
      = ([], Except.error (DemuxError.unsupportedCodec
          (beVal [0xDE, 0xAD, 0xBE, 0xEF]))) :=
  handshake_unknown_codec_fatal 0 (List.replicate 64 0)
    [0xDE, 0xAD, 0xBE, 0xEF] (List.replicate 8 0) []
    (by decide) (by decide) (by decide) (by decide) (by decide)

/-- Claim C2 counterexample: the claim's formula rounds to nearest, but
`inject_touch` truncates (`int(...)`).  At pressure `3 / 131072` the
clamped product is exactly `3 / 2`: the code yields `1`, the claimed
`min(round(...), 65535)` yields `2`. -/
theorem pressure_round_spec_counterexample :
    encodePressure (3 / 131072) = 1
    ∧ specPressureEncoding (3 / 131072) = 2
    ∧ encodePressure (3 / 131072) ≠ specPressureEncoding (3 / 131072) := by
  refine ⟨?_, ?_, ?_⟩
  · norm_num [encodePressure]
  · norm_num [specPressureEncoding, round_eq]
    decide
  · norm_num [encodePressure, specPressureEncoding, round_eq]
    decide

/-- Claim C2 (amended): for every pressure `p` in `[0, 2]` the 16-bit wire
value equals `min(floor(clamp(p, 0, 1) * 65536), 65535)` — truncation, not
rounding; the claim's concrete vectors are unchanged: `1.0 → 65535`,
`0.5 → 32768`, `-1 → 0`. -/
theorem pressure_encoding_truncated (p : ℚ) (h0 : 0 ≤ p) (h2 : p ≤ 2) :
    encodePressure p = min (Int.toNat ⌊max 0 (min 1 p) * 65536⌋) 65535
    ∧ encodePressure 1 = 65535
    ∧ encodePressure (1 / 2) = 32768
    ∧ encodePressure (-1) = 0 := by
  refine ⟨?_, ?_, ?_, ?_⟩
  · simp only [encodePressure]
    split <;> omega
  · norm_num [encodePressure]
  · norm_num [encodePressure]
    decide
  · norm_num [encodePressure]

/-- Claim C2 witness: the amended encoding law instantiated at `p = 0`. -/
theorem pressure_encoding_truncated_witness :
    (0 : ℚ) ≤ 0 ∧ (0 : ℚ) ≤ 2
    ∧ (encodePressure 0 = min (Int.toNat ⌊max 0 (min 1 (0 : ℚ)) * 65536⌋) 65535
        ∧ encodePressure 1 = 65535
        ∧ encodePressure (1 / 2) = 32768
        ∧ encodePressure (-1) = 0) :=
  ⟨le_refl 0, zero_le_two, pressure_encoding_truncated 0 (le_refl 0) zero_le_two⟩

/-- Claim C4 counterexample: the claim says an unrecognized inbound tag
stops the loop and escalates a fatal error, but `_device_loop` has no
`else` branch: tag `3` is silently skipped and the loop happily parses
the clipboard message that follows it. -/
theorem device_loop_unknown_tag_counterexample :
    deviceLoop [3, 0, 0, 0, 0, 1, 65] = [DeviceEvent.clipboard [65]]
    ∧ deviceLoop [3, 0, 0, 0, 0, 1, 65] ≠ [] := by
  have hu : utf8Valid [65] = true := by decide
  have e1 : deviceLoop [3, 0, 0, 0, 0, 1, 65] = deviceLoop [0, 0, 0, 0, 1, 65] := by
    rw [deviceLoop]
    norm_num
  have e2 : deviceLoop [0, 0, 0, 0, 1, 65] = [DeviceEvent.clipboard [65]] := by
    rw [deviceLoop]
    norm_num [beVal, hu, deviceLoop_nil]
  rw [e1, e2]
  simp

/-- Claim C4 (amended): an inbound control byte whose tag is not in
`{0, 1, 2}` is silently consumed and the read loop continues with the
next byte; no error is raised and the loop does not stop there. -/
theorem device_loop_unknown_tag_skipped (t : ℕ) (rest : List ℕ)
    (h0 : t ≠ 0) (h1 : t ≠ 1) (h2 : t ≠ 2) :
    deviceLoop (t :: rest) = deviceLoop rest := by
  rw [deviceLoop, if_neg h0, if_neg h1, if_neg h2]

/-- Claim C4 witness: unknown tag `3` is skipped and parsing continues. -/
theorem device_loop_unknown_tag_skipped_witness :
    deviceLoop [3, 1] = deviceLoop [1] :=
  device_loop_unknown_tag_skipped 3 [1] (by decide) (by decide) (by decide)

/-- Claim C6: `inject_touch` called while no resolution has been published
returns without writing any bytes and without raising: the send result is
`ok []`, regardless of the socket and of every argument. -/
theorem inject_touch_without_resolution_noop (st : ControlState) (action : ℕ)
    (x y : ℤ) (pr : ℚ) (ab btns : ℕ) (h : st.resolution = none) :
    inject_touch st action x y pr ab btns = Except.ok [] := by
  cases hsock : st.sock <;> simp [inject_touch, h, hsock, pure, Except.pure]

/-- Claim C6 witness: a touch injected on a fresh control state (socket
open, no resolution yet) writes nothing and raises nothing. -/
theorem inject_touch_without_resolution_noop_witness :
    inject_touch ⟨true, true, none⟩ 0 1 2 1 0 0 = Except.ok [] :=
  inject_touch_without_resolution_noop ⟨true, true, none⟩ 0 1 2 1 0 0 rfl

/-- Claim C7 counterexample: `Client.stop` is not idempotent — a second
call still runs `adb forward --remove` again (and would signal the
process handle, which `_stop_server` never clears), so it has an effect
beyond the first call. -/
theorem client_stop_second_call_counterexample :
    (clientStop (clientStop ⟨true, false⟩).1).2 = [ClientEffect.adbForwardRemove]
    ∧ (clientStop (clientStop ⟨true, false⟩).1).2 ≠ [] := by
  constructor <;> decide

/-- Claim C7 (amended): `Control.stop` is idempotent — a second sequential
call performs no effect and leaves the state unchanged — but `Client.stop`
is not: because `_stop_server` never clears the process handle, every
call, the second included, re-runs the port-forward removal command. -/
theorem stop_idempotent_control_not_client (s : ControlState)
    (c : ClientStopState) :
    (ctlStop (ctlStop s).1).1 = (ctlStop s).1
    ∧ (ctlStop (ctlStop s).1).2 = []
    ∧ (clientStop (clientStop c).1).2 = [ClientEffect.adbForwardRemove]
    ∧ (clientStop c).1.procPresent = c.procPresent := by
  refine ⟨?_, ?_, ?_, ?_⟩
  · simp [ctlStop]
  · simp [ctlStop]
  · rcases c with ⟨pp, pe⟩
    cases pp <;> cases pe <;> simp [clientStop, stopServer]
  · rcases c with ⟨pp, pe⟩
    cases pp <;> cases pe <;> simp [clientStop, stopServer]

/-- Claim C9: a touch-injection message is the 32-byte big-endian layout
`tag(1) + action(1) + pointerId(8) + x(4 signed) + y(4 signed) +
width(2) + height(2) + pressure(2) + actionButton(4) + buttons(4)`, and
the 8-byte pointer identifier is always the all-bits-set sentinel
`SC_POINTER_ID_MOUSE = 2^64 - 1` (eight `0xFF` bytes). -/
theorem inject_touch_wire_layout (st : ControlState) (action : ℕ)
    (x y : ℤ) (pr : ℚ) (ab btns width height : ℕ)
    (hsock : st.sock = true) (hres : st.resolution = some (width, height))
    (ha : action < 2 ^ 8)
    (hx1 : -(2 ^ 31) ≤ x) (hx2 : x < 2 ^ 31)
    (hy1 : -(2 ^ 31) ≤ y) (hy2 : y < 2 ^ 31)
    (hw : width < 2 ^ 16) (hh : height < 2 ^ 16)
    (hab : ab < 2 ^ 32) (hbt : btns < 2 ^ 32) :
    ∃ msg,
      inject_touch st action x y pr ab btns = Except.ok msg
      ∧ msg = [2] ++ [action] ++ List.replicate 8 255
          ++ beBytes 4 (Int.toNat (x % 2 ^ 32)) ++ beBytes 4 (Int.toNat (y % 2 ^ 32))
          ++ beBytes 2 width ++ beBytes 2 height
          ++ beBytes 2 (encodePressure pr) ++ beBytes 4 ab ++ beBytes 4 btns
      ∧ msg.length = 32
      ∧ List.replicate 8 255 = beBytes 8 SC_POINTER_ID_MOUSE
      ∧ SC_POINTER_ID_MOUSE = 2 ^ 64 - 1 := by
  have hrep : List.replicate 8 255 = beBytes 8 SC_POINTER_ID_MOUSE := by decide
  have hsc : SC_POINTER_ID_MOUSE = 2 ^ 64 - 1 := by decide
  refine ⟨_, ?_, rfl, ?_, hrep, hsc⟩
  · simp only [inject_touch, hsock, hres, pack_B, pack_H, pack_I, pack_Q, pack_i,
      bind, Except.bind, pure, Except.pure, CONTROL_MSG_TYPE_INJECT_TOUCH_EVENT]
    rw [if_pos (by decide : (2 : ℕ) < 2 ^ 8), if_pos ha,
      if_pos (by decide : SC_POINTER_ID_MOUSE < 2 ^ 64),
      if_pos ⟨hx1, hx2⟩, if_pos ⟨hy1, hy2⟩, if_pos hw, if_pos hh,
      if_pos (lt_of_le_of_lt (encodePressure_le pr) (by decide)),
      if_pos hab, if_pos hbt]
    simp only [beBytes_one 2 (by decide), beBytes_one action (by omega), ← hrep]
  · simp [beBytes_length, List.length_replicate]

/-- Claim C9 witness: a concrete touch message on a 1080×1920 screen. -/
theorem inject_touch_wire_layout_witness :
    ∃ msg,
      inject_touch ⟨true, true, some (1080, 1920)⟩ 0 100 (-5) 1 1 2
        = Except.ok msg
      ∧ msg = [2] ++ [0] ++ List.replicate 8 255
          ++ beBytes 4 (Int.toNat ((100 : ℤ) % 2 ^ 32))
          ++ beBytes 4 (Int.toNat ((-5 : ℤ) % 2 ^ 32))
          ++ beBytes 2 1080 ++ beBytes 2 1920
          ++ beBytes 2 (encodePressure 1) ++ beBytes 4 1 ++ beBytes 4 2
      ∧ msg.length = 32
      ∧ List.replicate 8 255 = beBytes 8 SC_POINTER_ID_MOUSE
      ∧ SC_POINTER_ID_MOUSE = 2 ^ 64 - 1 :=
  inject_touch_wire_layout ⟨true, true, some (1080, 1920)⟩ 0 100 (-5) 1 1 2
    1080 1920 rfl rfl (by decide) (by decide) (by decide) (by decide)
    (by decide) (by decide) (by decide) (by decide) (by decide)

/-- Claim C10: once `Control.stop` has released the socket, every outbound
command operation — inject text, inject keycode, inject touch,
back-or-screen-on, expand notification panel, collapse panels — is a
silent no-op: it writes no bytes and raises no error. -/
theorem outbound_commands_noop_after_stop (st : ControlState)
    (payload : List ℕ) (keycode action rpt meta a2 : ℕ) (x y : ℤ) (pr : ℚ)
    (ab btns a3 : ℕ) :
    send_text (ctlStop st).1 payload = Except.ok []
    ∧ inject_keycode (ctlStop st).1 keycode action rpt meta = Except.ok []
    ∧ inject_touch (ctlStop st).1 a2 x y pr ab btns = Except.ok []
    ∧ back_or_screen_on (ctlStop st).1 a3 = Except.ok []
    ∧ expand_notification_panel (ctlStop st).1 = Except.ok []
    ∧ collapse_panels (ctlStop st).1 = Except.ok [] := by
  refine ⟨?_, ?_, ?_, ?_, ?_, ?_⟩ <;>
    simp [ctlStop, send_text, inject_keycode, inject_touch, back_or_screen_on,
      expand_notification_panel, collapse_panels, pure, Except.pure]
